import Mathlib

/-!
Shallow embedding of the Forseti IAM-Explain importer
(`google/cloud/security/iam/explain/importer/importer.py`).

The importers are modelled as functions producing an ordered trace of
`Event`s: every session operation (`merge` = upsert, `add` = insert, the
`dao.add_*` helpers of the TEST importer) and every model-lifecycle
operation (`set_inprogress`, `kick_watchdog`, `set_done`, `commit`)
becomes one trace element, emitted in the order the Python code performs
it.  The `ForsetiImporter` additionally threads its in-run
`resource_cache` (a Python dict, modelled as an association list where
insertion prepends and lookup takes the first match, which realises
dict overwrite semantics) and the `last_watchdog_kick` timestamp.
Wall-clock time is modelled by attaching to each stream record the
`time()` value observed at the record boundary that follows it; the two
`time()` calls at a kicking boundary (check and reset) are collapsed to
that one value.  A raised Python exception is modelled as an
`ImpError` value returned next to the (partial) trace; `KeyError` on a
cache lookup is rendered as `ImpError.resolutionError` following the
spec's error taxonomy.  The external persisted store (SQLAlchemy
queries used by `_convert_policy`) is a `Store` of query oracles; the
bare `except:` around the role query and the uncaught `.one()` on the
resource query are reproduced exactly.
-/

/-- Model lifecycle status, from the spec's state machine. -/
inductive Status : Type where
  | PENDING : Status
  | RUNNING : Status
  | DONE : Status
  | BROKEN : Status
deriving DecidableEq, Repr

/-- The model row: lifecycle status plus liveness heartbeat timestamp. -/
structure ModelState : Type where
  status : Status
  heartbeat : Nat
deriving DecidableEq, Repr

/-- A resource row (`TBL_RESOURCE`): full hierarchical name, local
composite name, type, optional parent object, display name.  Fields the
Python constructor does not pass are modelled as the empty string. -/
inductive Resource : Type where
  | mk (full_name : String) (name : String) (rtype : String)
       (parent : Option Resource) (display_name : String) : Resource

def Resource.full_name : Resource → String
  | .mk f _ _ _ _ => f

def Resource.name : Resource → String
  | .mk _ n _ _ _ => n

def Resource.rtype : Resource → String
  | .mk _ _ t _ _ => t

def Resource.parent : Resource → Option Resource
  | .mk _ _ _ p _ => p

def Resource.display_name : Resource → String
  | .mk _ _ _ _ d => d

/-- A member row (`TBL_MEMBER`): name (`type/identifier`), type,
bare identifier, and the names of the parent group rows. -/
structure MemberRow : Type where
  name : String
  mtype : String
  member_name : String
  parents : List String
deriving DecidableEq, Repr

/-- Failures of the external persisted-store layer, as seen by a query:
the row was not found, or the store failed for another reason. -/
inductive StoreErr : Type where
  | notFound : StoreErr
  | failure (msg : String) : StoreErr
deriving DecidableEq, Repr

/-- Errors that can escape `run()`.  `resolutionError` models the
`KeyError` of a cache miss and the not-found of a point query (the
spec's ResolutionError); `storeError` a propagated store failure;
`notImplementedError` the `NotImplementedError` for unknown kinds;
`valueError` the unpack failure of `Member.__init__` on a member
string without a colon. -/
inductive ImpError : Type where
  | resolutionError (key : String) : ImpError
  | storeError (msg : String) : ImpError
  | notImplementedError (kind : String) : ImpError
  | valueError (s : String) : ImpError
deriving DecidableEq, Repr

/-- One observable operation of an import run, in program order. -/
inductive Event : Type where
  | persistModel : Event
  | setInprogress : Event
  | kickWatchdog (t : Nat) : Event
  | setDone : Event
  | commit : Event
  | mergeResource (r : Resource) : Event
  | addResource (r : Resource) : Event
  | mergeMember (m : MemberRow) : Event
  | addMember (m : MemberRow) : Event
  | mergePermission (p : String) : Event
  | addPermission (p : String) : Event
  | addRole (name : String) (permissions : List String) : Event
  | addBinding (resource : String) (role : String) (members : List String) : Event
  | daoAddResource (name : String) (parent : Option String) : Event
  | daoAddPermission (name : String) : Event
  | daoAddRole (name : String) (permissions : List String) : Event
  | daoAddMember (name : String) (mtype : String) (parents : List String) : Event
  | daoAddBinding (resource : String) (role : String) (members : List String) : Event

/-- Effect of one event on the model row: only the three lifecycle
mutators touch it. -/
def ModelState.apply (m : ModelState) : Event → ModelState
  | .setInprogress => { m with status := Status.RUNNING }
  | .setDone => { m with status := Status.DONE }
  | .kickWatchdog t => { m with heartbeat := t }
  | _ => m

/-- Model row after replaying a trace. -/
def applyTrace (m : ModelState) (es : List Event) : ModelState :=
  es.foldl ModelState.apply m

def Event.isCommit : Event → Bool
  | .commit => true
  | _ => false

def Event.isSetDone : Event → Bool
  | .setDone => true
  | _ => false

def Event.isSetInprogress : Event → Bool
  | .setInprogress => true
  | _ => false

def Event.isPersistModel : Event → Bool
  | .persistModel => true
  | _ => false

def Event.isKick : Event → Bool
  | .kickWatchdog _ => true
  | _ => false

def Event.isAddRole : Event → Bool
  | .addRole _ _ => true
  | _ => false

def Event.isAddBinding : Event → Bool
  | .addBinding _ _ _ => true
  | _ => false

def Event.isMergeMember : Event → Bool
  | .mergeMember _ => true
  | _ => false

def Event.isDaoAddResource : Event → Bool
  | .daoAddResource _ _ => true
  | _ => false

def Event.isDaoAddPermission : Event → Bool
  | .daoAddPermission _ => true
  | _ => false

def Event.isDaoAddRole : Event → Bool
  | .daoAddRole _ _ => true
  | _ => false

def Event.isDaoAddMember : Event → Bool
  | .daoAddMember _ _ _ => true
  | _ => false

def Event.isDaoAddBinding : Event → Bool
  | .daoAddBinding _ _ _ => true
  | _ => false

/-- True on store writes (merges, adds, dao adds); false on the
lifecycle events (`persistModel`, `setInprogress`, `kickWatchdog`,
`setDone`, `commit`). -/
def Event.isStore : Event → Bool
  | .persistModel => false
  | .setInprogress => false
  | .kickWatchdog _ => false
  | .setDone => false
  | .commit => false
  | _ => true

/-- True on events that leave `ModelState.status` unchanged. -/
def Event.keepsStatus : Event → Bool
  | .setInprogress => false
  | .setDone => false
  | _ => true

/-- Timestamp of a heartbeat write, if the event is one. -/
def Event.kickTime? : Event → Option Nat
  | .kickWatchdog t => some t
  | _ => none

/-- Timestamps of the heartbeat writes of a trace, in order. -/
def kickTimes (es : List Event) : List Nat :=
  es.filterMap Event.kickTime?

/-- The in-run `resource_cache` dict: composite key to
(resource object, full resource name).  Insertion prepends and lookup
returns the first match, so a later insert under the same key shadows
the earlier one, exactly as a dict overwrite. -/
def Cache : Type := List (String × (Resource × String))

def Cache.find : Cache → String → Option (Resource × String)
  | [], _ => none
  | (k, v) :: rest, key => if k = key then some v else Cache.find rest key

def Cache.insert (c : Cache) (k : String) (v : Resource × String) : Cache :=
  (k, v) :: c

/-- Payload of an `organizations` record. -/
structure OrgObj : Type where
  org_id : String
deriving DecidableEq, Repr

/-- Payload of a `folders` record. -/
structure FolderObj : Type where
  folder_id : String
  parent_type : String
  parent_id : String
  display_name : String
deriving DecidableEq, Repr

/-- Payload of a `projects` record. -/
structure ProjectObj : Type where
  project_number : String
  parent_type : String
  parent_id : String
  project_name : String
deriving DecidableEq, Repr

/-- Payload of a `buckets` record. -/
structure BucketObj : Type where
  bucket_id : String
  project_number : String
deriving DecidableEq, Repr

/-- Payload of a `cloudsqlinstances` record. -/
structure SqlInstObj : Type where
  name : String
  project_number : String
deriving DecidableEq, Repr

/-- One binding of a policy document: a role name and the raw
`"type:name"` member strings, in document order. -/
structure BindingSpec : Type where
  role : String
  members : List String
deriving DecidableEq, Repr

/-- Payload of a `policy` record: the `(resource type, resource id)`
reference and the parsed `bindings` list of the policy document. -/
structure PolicyObj : Type where
  res_type : String
  res_id : String
  bindings : List BindingSpec
deriving DecidableEq, Repr

/-- Payload of a `membership` record: the member and its groups. -/
structure MembershipObj : Type where
  member_type : String
  member_email : String
  groups : List String
deriving DecidableEq, Repr

/-- One record of the Forseti stream, dispatched on its kind string.
The eight handled kinds and `customer` are explicit; every other kind
string is carried by `unknown`. -/
inductive Rec : Type where
  | organizations (o : OrgObj) : Rec
  | folders (o : FolderObj) : Rec
  | projects (o : ProjectObj) : Rec
  | buckets (o : BucketObj) : Rec
  | cloudsqlinstances (o : SqlInstObj) : Rec
  | policy (o : PolicyObj) : Rec
  | group (gname : String) : Rec
  | membership (o : MembershipObj) : Rec
  | customer : Rec
  | unknown (kind : String) : Rec

/-- The persisted-store oracles used by `_convert_policy`: the role
point query (`session.query(TBL_ROLE)...one()`), the resource point
query (`session.query(TBL_RESOURCE)...one()`), and the fabricated
permission list produced by `dummy_generate_permissions` for a role
(random in the source, hence an arbitrary oracle here). -/
structure Store : Type where
  queryRole : String → Except StoreErr Unit
  queryResource : String → Except StoreErr Resource
  genPerms : String → List String

/-- `_convert_organization`: build the root resource, cache it under
the well-known key `organization` and under its own name. -/
def convert_organization (c : Cache) (o : OrgObj) : Resource × Cache :=
  let org_name := "organization/" ++ o.org_id
  let org := Resource.mk org_name org_name "organization" none ""
  (org, Cache.insert (Cache.insert c "organization" (org, org_name)) org_name (org, org_name))

/-- `_convert_folder`: look up the declared parent in the cache (a miss
is the uncaught `KeyError`), compose names, merge the row, cache it. -/
def convert_folder (c : Cache) (o : FolderObj) :
    Except ImpError (Resource × Cache × List Event) :=
  let parent_type_name := o.parent_type ++ "/" ++ o.parent_id
  match Cache.find c parent_type_name with
  | none => Except.error (ImpError.resolutionError parent_type_name)
  | some pv =>
    let full_folder_name := pv.2 ++ "/folder/" ++ o.folder_id
    let folder_type_name := "folder/" ++ o.folder_id
    let folder := Resource.mk full_folder_name folder_type_name "folder"
      (some pv.1) o.display_name
    Except.ok (folder, Cache.insert c folder_type_name (folder, full_folder_name),
      [Event.mergeResource folder])

/-- `_convert_project`: as for folders, caching under `project/number`. -/
def convert_project (c : Cache) (o : ProjectObj) :
    Except ImpError (Resource × Cache × List Event) :=
  let parent_type_name := o.parent_type ++ "/" ++ o.parent_id
  match Cache.find c parent_type_name with
  | none => Except.error (ImpError.resolutionError parent_type_name)
  | some pv =>
    let project_name := "project/" ++ o.project_number
    let full_project_name := pv.2 ++ "/project/" ++ o.project_number
    let project := Resource.mk full_project_name project_name "project"
      (some pv.1) o.project_name
    Except.ok (project, Cache.insert c project_name (project, full_project_name),
      [Event.mergeResource project])

/-- `_convert_bucket`: parent is `project/number` from the cache; the
bucket itself is merged but never written back into the cache. -/
def convert_bucket (c : Cache) (o : BucketObj) :
    Except ImpError (Resource × Cache × List Event) :=
  let bucket_name := "bucket/" ++ o.bucket_id
  let project_name := "project/" ++ o.project_number
  match Cache.find c project_name with
  | none => Except.error (ImpError.resolutionError project_name)
  | some pv =>
    let full_bucket_name := pv.2 ++ "/" ++ bucket_name
    let bucket := Resource.mk full_bucket_name bucket_name "bucket" (some pv.1) ""
    Except.ok (bucket, c, [Event.mergeResource bucket])

/-- `_convert_cloudsqlinstance`: identical shape to buckets; the
instance is merged but never written back into the cache. -/
def convert_cloudsqlinstance (c : Cache) (o : SqlInstObj) :
    Except ImpError (Resource × Cache × List Event) :=
  let sqlinst_name := "cloudsqlinstance/" ++ o.name
  let project_name := "project/" ++ o.project_number
  match Cache.find c project_name with
  | none => Except.error (ImpError.resolutionError project_name)
  | some pv =>
    let full_sqlinst_name := pv.2 ++ "/" ++ sqlinst_name
    let sqlinst := Resource.mk full_sqlinst_name sqlinst_name "cloudsqlinstance"
      (some pv.1) ""
    Except.ok (sqlinst, c, [Event.mergeResource sqlinst])

/-- Split a list of characters at the first colon, as Python's
`split(':', 1)` does; `none` when there is no colon. -/
def splitCharsOnColon : List Char → Option (List Char × List Char)
  | [] => none
  | ch :: rest =>
    if ch = ':' then some ([], rest)
    else
      match splitCharsOnColon rest with
      | none => none
      | some (a, b) => some (ch :: a, b)

/-- `Member.__init__`: split the member string on the first colon into
type and name; no colon means the tuple unpack raises `ValueError`. -/
def splitMember (s : String) : Except ImpError (String × String) :=
  match splitCharsOnColon s.data with
  | none => Except.error (ImpError.valueError s)
  | some (a, b) => Except.ok (String.mk a, String.mk b)

/-- The member loop of `_convert_policy`: merge one `TBL_MEMBER` row
per member string (no parents), in order, stopping at the first
malformed string with the events emitted so far. -/
def processMembers : List String → List Event × Except ImpError (List (String × String))
  | [] => ([], Except.ok [])
  | m :: rest =>
    match splitMember m with
    | Except.error e => ([], Except.error e)
    | Except.ok (t, n) =>
      let ev := Event.mergeMember ⟨t ++ "/" ++ n, t, n, []⟩
      match processMembers rest with
      | (es, Except.ok l) => (ev :: es, Except.ok ((t, n) :: l))
      | (es, Except.error e) => (ev :: es, Except.error e)

/-- The role-creation fallback of `_convert_policy`: merge then add the
fabricated permissions, then add the new role row. -/
def roleCreationEvents (store : Store) (role : String) : List Event :=
  (store.genPerms role).map Event.mergePermission ++
    (store.genPerms role).map Event.addPermission ++
    [Event.addRole role (store.genPerms role)]

/-- One binding of `_convert_policy`: merge the member rows; query the
role by name under a bare `except:` so that any query failure at all
falls back to creating the role; point-query the target resource on
the persisted store (its failure propagates); add the binding row. -/
def processBinding (store : Store) (rt ri : String) (b : BindingSpec) :
    List Event × Option ImpError :=
  match processMembers b.members with
  | (es, Except.error e) => (es, some e)
  | (es, Except.ok ms) =>
    let roleEs :=
      match store.queryRole b.role with
      | Except.ok _ => []
      | Except.error _ => roleCreationEvents store b.role
    match store.queryResource (rt ++ "/" ++ ri) with
    | Except.error StoreErr.notFound =>
      (es ++ roleEs, some (ImpError.resolutionError (rt ++ "/" ++ ri)))
    | Except.error (StoreErr.failure msg) =>
      (es ++ roleEs, some (ImpError.storeError msg))
    | Except.ok r =>
      (es ++ roleEs ++
        [Event.addBinding r.name b.role (ms.map (fun p => p.1 ++ "/" ++ p.2))], none)

/-- The binding loop of `_convert_policy`, in document order; the first
failing binding aborts with the events emitted so far. -/
def convert_policy_go (store : Store) (rt ri : String) :
    List BindingSpec → List Event × Option ImpError
  | [] => ([], none)
  | b :: bs =>
    match processBinding store rt ri b with
    | (es, some e) => (es, some e)
    | (es, none) =>
      let k := convert_policy_go store rt ri bs
      (es ++ k.1, k.2)

/-- `_convert_policy`. -/
def convert_policy (store : Store) (o : PolicyObj) : List Event × Option ImpError :=
  convert_policy_go store o.res_type o.res_id o.bindings

/-- `_convert_group`: merge a group member row with no parents. -/
def convert_group (g : String) : MemberRow × List Event :=
  let row : MemberRow := ⟨"group/" ++ g, "group", g, []⟩
  (row, [Event.mergeMember row])

/-- `_convert_membership`: merge each group row, then merge the member
row with the groups as parents; the member type is lowercased. -/
def convert_membership (o : MembershipObj) : MemberRow × List Event :=
  let groupRows := o.groups.map
    (fun ge => (⟨"group/" ++ ge, "group", ge, []⟩ : MemberRow))
  let mt := o.member_type.toLower
  let row : MemberRow :=
    ⟨mt ++ "/" ++ o.member_email, mt, o.member_email,
      o.groups.map (fun ge => "group/" ++ ge)⟩
  (row, groupRows.map Event.mergeMember ++ [Event.mergeMember row])

/-- How `run()` consumes a converter result: an error propagates with
nothing written, a converted resource is `session.add`ed. -/
def stepConverted (c : Cache) :
    Except ImpError (Resource × Cache × List Event) → Cache × List Event × Option ImpError
  | Except.error e => (c, [], some e)
  | Except.ok (r, c2, es) => (c2, es ++ [Event.addResource r], none)

/-- The dispatch of one stream record inside `run()`'s loop body:
the eight handled kinds go to their converter, `customer` is silently
skipped, anything else raises `NotImplementedError`. -/
def stepRecord (store : Store) (c : Cache) : Rec → Cache × List Event × Option ImpError
  | Rec.organizations o =>
    ((convert_organization c o).2,
      [Event.addResource (convert_organization c o).1], none)
  | Rec.folders o => stepConverted c (convert_folder c o)
  | Rec.projects o => stepConverted c (convert_project c o)
  | Rec.buckets o => stepConverted c (convert_bucket c o)
  | Rec.cloudsqlinstances o => stepConverted c (convert_cloudsqlinstance c o)
  | Rec.policy o => (c, (convert_policy store o).1, (convert_policy store o).2)
  | Rec.group g => (c, (convert_group g).2 ++ [Event.addMember (convert_group g).1], none)
  | Rec.membership o =>
    (c, (convert_membership o).2 ++ [Event.addMember (convert_membership o).1], none)
  | Rec.customer => (c, [], none)
  | Rec.unknown kind => (c, [], some (ImpError.notImplementedError kind))

/-- `run()`'s record loop: process each record, then at the record
boundary kick the watchdog when strictly more than 10 seconds have
elapsed since the previous kick.  A raised error stops the loop with
the events written so far. -/
def runLoop (store : Store) (c : Cache) (last : Nat) :
    List (Rec × Nat) → Cache × List Event × Option ImpError
  | [] => (c, [], none)
  | (r, t) :: rest =>
    match stepRecord store c r with
    | (c1, es1, some e) => (c1, es1, some e)
    | (c1, es1, none) =>
      if 10 < t - last then
        let k := runLoop store c1 t rest
        (k.1, es1 ++ Event.kickWatchdog t :: k.2.1, k.2.2)
      else
        let k := runLoop store c1 last rest
        (k.1, es1 ++ k.2.1, k.2.2)

/-- `ForsetiImporter.run`: persist the model, flip it to RUNNING, write
the initial heartbeat, consume the stream, and on exhaustion set DONE
and perform the single final commit.  `t0` is the start time; each
record carries the time of the boundary after it. -/
def ForsetiImporter.run (store : Store) (t0 : Nat) (recs : List (Rec × Nat)) :
    List Event × Option ImpError :=
  let start : List Event :=
    [Event.persistModel, Event.setInprogress, Event.kickWatchdog t0]
  match runLoop store [] t0 recs with
  | (_, es, some e) => (start ++ es, some e)
  | (_, es, none) => (start ++ (es ++ [Event.setDone, Event.commit]), none)

/-- `EmptyImporter.run`: a single commit. -/
def EmptyImporter.run : List Event := [Event.commit]

/-- `TestImporter.run`: the fixed deterministic fixture, in program
order, ending in the single commit. -/
def TestImporter.run : List Event :=
  [Event.daoAddResource "project" none,
   Event.daoAddResource "vm1" (some "project"),
   Event.daoAddResource "db1" (some "project"),
   Event.daoAddPermission "cloudsql.table.read",
   Event.daoAddPermission "cloudsql.table.write",
   Event.daoAddRole "sqlreader" ["cloudsql.table.read"],
   Event.daoAddRole "sqlwriter" ["cloudsql.table.read", "cloudsql.table.write"],
   Event.daoAddMember "group1" "group" [],
   Event.daoAddMember "group2" "group" ["group1"],
   Event.daoAddMember "felix" "user" ["group2"],
   Event.daoAddMember "fooba" "user" ["group2"],
   Event.daoAddBinding "vm1" "sqlreader" ["group1"],
   Event.daoAddBinding "project" "sqlwriter" ["group2"],
   Event.commit]

/-- The evolution of `last_watchdog_kick` over the boundary times of a
run, mirroring the loop's timing state. -/
def lastKick (last : Nat) : List Nat → Nat
  | [] => last
  | t :: ts => if 10 < t - last then lastKick t ts else lastKick last ts

/-- The heartbeat-write times the loop produces from the boundary
times of a run. -/
def kicksFrom (last : Nat) : List Nat → List Nat
  | [] => []
  | t :: ts => if 10 < t - last then t :: kicksFrom t ts else kicksFrom last ts

/-- A plain store for concrete runs: the role query reports not-found,
the resource query succeeds with a row named after the queried key
under the organization root, and the fabricated permission list is a
fixed singleton. -/
def storeW : Store :=
  { queryRole := fun _ => Except.error StoreErr.notFound,
    queryResource := fun n =>
      Except.ok (Resource.mk ("organization/123/" ++ n) n "project" none ""),
    genPerms := fun _ => ["a.b.c"] }

/-- A store whose role query always finds the role. -/
def storeRoleFound : Store := { storeW with queryRole := fun _ => Except.ok () }

/-- A store whose role query fails with a non-not-found store error. -/
def storeRoleFail : Store :=
  { storeW with queryRole := fun _ => Except.error (StoreErr.failure "connection lost") }

/-- A store whose resource point query reports not-found. -/
def storeResMissing : Store :=
  { storeW with queryResource := fun _ => Except.error StoreErr.notFound }

/-- The single-binding policy document of the spec's binding scenario,
attached to the resource reference `(rt, ri)`. -/
def polA (rt ri : String) : PolicyObj :=
  ⟨rt, ri, [⟨"role/a", ["user:alice", "group:g1"]⟩]⟩

/-- A cache holding exactly one project, for bucket conversions. -/
def projCacheW : Cache :=
  [("project/456",
    (Resource.mk "organization/123/project/456" "project/456" "project" none "",
     "organization/123/project/456"))]

/-! ## Trace hygiene lemmas -/

theorem applyTrace_append (m : ModelState) (es1 es2 : List Event) :
    applyTrace m (es1 ++ es2) = applyTrace (applyTrace m es1) es2 :=
  List.foldl_append _ _ _ _

theorem apply_keepsStatus (m : ModelState) (e : Event)
    (h : Event.keepsStatus e = true) : (ModelState.apply m e).status = m.status := by
  cases e <;> first | rfl | (exfalso; simp [Event.keepsStatus] at h)

theorem applyTrace_status (es : List Event) :
    ∀ m : ModelState, es.all Event.keepsStatus = true →
      (applyTrace m es).status = m.status := by
  induction es with
  | nil => intro m _; rfl
  | cons e es ih =>
    intro m h
    rw [List.all_cons, Bool.and_eq_true] at h
    have h2 : applyTrace m (e :: es) = applyTrace (ModelState.apply m e) es := rfl
    rw [h2, ih _ h.2, apply_keepsStatus m e h.1]

theorem all_imp {α : Type} {p q : α → Bool} (hpq : ∀ a, p a = true → q a = true)
    (l : List α) (h : l.all p = true) : l.all q = true := by
  rw [List.all_eq_true] at h ⊢
  exact fun a ha => hpq a (h a ha)

theorem storeOrKick_keepsStatus (e : Event)
    (h : (Event.isStore e || Event.isKick e) = true) : Event.keepsStatus e = true := by
  cases e <;> first | rfl | (exfalso; simp [Event.isStore, Event.isKick] at h)

theorem storeOrKick_not_commit (e : Event)
    (h : (Event.isStore e || Event.isKick e) = true) : Event.isCommit e = false := by
  cases e <;> first | rfl | (exfalso; simp [Event.isStore, Event.isKick] at h)

theorem storeOrKick_not_setDone (e : Event)
    (h : (Event.isStore e || Event.isKick e) = true) : Event.isSetDone e = false := by
  cases e <;> first | rfl | (exfalso; simp [Event.isStore, Event.isKick] at h)

theorem storeOrKick_not_setInprogress (e : Event)
    (h : (Event.isStore e || Event.isKick e) = true) : Event.isSetInprogress e = false := by
  cases e <;> first | rfl | (exfalso; simp [Event.isStore, Event.isKick] at h)

theorem storeOrKick_not_persist (e : Event)
    (h : (Event.isStore e || Event.isKick e) = true) : Event.isPersistModel e = false := by
  cases e <;> first | rfl | (exfalso; simp [Event.isStore, Event.isKick] at h)

theorem isStore_kickTime (e : Event) (h : Event.isStore e = true) :
    Event.kickTime? e = none := by
  cases e <;> first | rfl | (exfalso; simp [Event.isStore] at h)

theorem isStore_storeOrKick (e : Event) (h : Event.isStore e = true) :
    (Event.isStore e || Event.isKick e) = true := by
  rw [h]; rfl

theorem countP_zero_of_all {p q : Event → Bool}
    (hpq : ∀ e, p e = true → q e = false) (es : List Event)
    (h : es.all p = true) : es.countP q = 0 := by
  rw [List.countP_eq_zero]
  rw [List.all_eq_true] at h
  intro e he
  rw [hpq e (h e he)]
  simp

theorem kickTimes_nil_of_store (es : List Event) (h : es.all Event.isStore = true) :
    kickTimes es = [] := by
  rw [kickTimes, List.filterMap_eq_nil_iff]
  rw [List.all_eq_true] at h
  exact fun e he => isStore_kickTime e (h e he)

theorem all_map_of_pointwise {α : Type} (f : α → Event) (p : Event → Bool)
    (hp : ∀ a, p (f a) = true) (l : List α) : (l.map f).all p = true := by
  induction l with
  | nil => rfl
  | cons a l ih => simp [List.all_cons, hp, ih]

/-! ## Store-event lemmas for the converters and the loop -/

theorem processMembers_all_store (ms : List String) :
    (processMembers ms).1.all Event.isStore = true := by
  induction ms with
  | nil => rfl
  | cons m rest ih =>
    rw [processMembers]
    cases hsm : splitMember m with
    | error e => rfl
    | ok tn =>
      obtain ⟨t, n⟩ := tn
      cases hpm : processMembers rest with
      | mk es r =>
        rw [hpm] at ih
        cases r <;> simp_all [List.all_cons, Event.isStore]

theorem roleCreationEvents_all_store (store : Store) (role : String) :
    (roleCreationEvents store role).all Event.isStore = true := by
  rw [roleCreationEvents]
  simp only [List.all_append, Bool.and_eq_true]
  exact ⟨⟨all_map_of_pointwise _ _ (fun _ => rfl) _,
    all_map_of_pointwise _ _ (fun _ => rfl) _⟩, rfl⟩

theorem processBinding_all_store (store : Store) (rt ri : String) (b : BindingSpec) :
    (processBinding store rt ri b).1.all Event.isStore = true := by
  rw [processBinding]
  cases hpm : processMembers b.members with
  | mk es r =>
    have hes : es.all Event.isStore = true := by
      have h := processMembers_all_store b.members
      rw [hpm] at h; exact h
    cases r with
    | error e => exact hes
    | ok ms =>
      have hrole : (match store.queryRole b.role with
          | Except.ok _ => []
          | Except.error _ => roleCreationEvents store b.role).all Event.isStore = true := by
        cases store.queryRole b.role with
        | ok u => rfl
        | error e => exact roleCreationEvents_all_store store b.role
      cases hqr : store.queryResource (rt ++ "/" ++ ri) with
      | error se => cases se <;> simp_all [List.all_append]
      | ok r => simp_all [List.all_append, List.all_cons, Event.isStore]

theorem convert_policy_go_all_store (store : Store) (rt ri : String)
    (bs : List BindingSpec) :
    (convert_policy_go store rt ri bs).1.all Event.isStore = true := by
  induction bs with
  | nil => rfl
  | cons b bs ih =>
    rw [convert_policy_go]
    cases hpb : processBinding store rt ri b with
    | mk es r =>
      have hes : es.all Event.isStore = true := by
        have h := processBinding_all_store store rt ri b
        rw [hpb] at h; exact h
      cases r <;> simp_all [List.all_append]

theorem stepRecord_all_store (store : Store) (c : Cache) (r : Rec) :
    ((stepRecord store c r).2.1).all Event.isStore = true := by
  cases r with
  | organizations o => rfl
  | folders o =>
    rw [stepRecord, convert_folder]
    cases Cache.find c (o.parent_type ++ "/" ++ o.parent_id) <;> rfl
  | projects o =>
    rw [stepRecord, convert_project]
    cases Cache.find c (o.parent_type ++ "/" ++ o.parent_id) <;> rfl
  | buckets o =>
    rw [stepRecord, convert_bucket]
    cases Cache.find c ("project/" ++ o.project_number) <;> rfl
  | cloudsqlinstances o =>
    rw [stepRecord, convert_cloudsqlinstance]
    cases Cache.find c ("project/" ++ o.project_number) <;> rfl
  | policy o => exact convert_policy_go_all_store store o.res_type o.res_id o.bindings
  | group g => rfl
  | membership o =>
    rw [stepRecord, convert_membership]
    simp only [List.all_append, List.all_cons, Bool.and_eq_true]
    exact ⟨⟨all_map_of_pointwise _ _ (fun _ => rfl) _, rfl, rfl⟩, rfl, rfl⟩
  | customer => rfl
  | unknown k => rfl

theorem runLoop_all_storeOrKick (store : Store) (recs : List (Rec × Nat)) :
    ∀ c last, ((runLoop store c last recs).2.1).all
      (fun e => Event.isStore e || Event.isKick e) = true := by
  induction recs with
  | nil => intro c last; rfl
  | cons p recs ih =>
    intro c last
    obtain ⟨r, t⟩ := p
    have hstep : ((stepRecord store c r).2.1).all
        (fun e => Event.isStore e || Event.isKick e) = true :=
      all_imp isStore_storeOrKick _ (stepRecord_all_store store c r)
    rw [runLoop]
    cases hs : stepRecord store c r with
    | mk c1 y =>
      obtain ⟨es1, err1⟩ := y
      rw [hs] at hstep
      cases err1 with
      | some e => exact hstep
      | none =>
        dsimp only
        by_cases ht : 10 < t - last
        · rw [if_pos ht]
          simp only [List.all_append, List.all_cons, Bool.and_eq_true]
          exact ⟨hstep, by rfl, ih c1 t⟩
        · rw [if_neg ht]
          simp only [List.all_append, Bool.and_eq_true]
          exact ⟨hstep, ih c1 last⟩

/-! ## Heartbeat timing lemmas -/

theorem chain_le_weaken (a b : Nat) (ts : List Nat) (hab : a ≤ b)
    (h : List.Chain (fun x y => x ≤ y) b ts) : List.Chain (fun x y => x ≤ y) a ts := by
  cases h with
  | nil => exact List.Chain.nil
  | cons hbc htail => exact List.Chain.cons (le_trans hab hbc) htail

theorem kicksFrom_chain (ts : List Nat) :
    ∀ last, List.Chain (fun x y => x ≤ y) last ts →
      List.Chain (fun x y => x ≤ y) last (kicksFrom last ts) := by
  induction ts with
  | nil => intro last _; exact List.Chain.nil
  | cons t ts ih =>
    intro last h
    cases h with
    | cons hle htail =>
      rw [kicksFrom]
      by_cases ht : 10 < t - last
      · rw [if_pos ht]
        exact List.Chain.cons hle (ih t htail)
      · rw [if_neg ht]
        exact ih last (chain_le_weaken last t ts hle htail)

theorem lastKick_append (xs ys : List Nat) :
    ∀ last, lastKick last (xs ++ ys) = lastKick (lastKick last xs) ys := by
  induction xs with
  | nil => intro last; rfl
  | cons x xs ih =>
    intro last
    rw [List.cons_append, lastKick, lastKick]
    by_cases hx : 10 < x - last
    · rw [if_pos hx, if_pos hx, ih]
    · rw [if_neg hx, if_neg hx, ih]

theorem boundary_staleness (t0 t : Nat) (ts1 : List Nat) :
    t - lastKick t0 (ts1 ++ [t]) ≤ 10 := by
  rw [lastKick_append]
  simp only [lastKick]
  by_cases h : 10 < t - lastKick t0 ts1
  · rw [if_pos h]; omega
  · rw [if_neg h]; omega

theorem runLoop_kickTimes (store : Store) (recs : List (Rec × Nat)) :
    ∀ c last, (runLoop store c last recs).2.2 = none →
      kickTimes (runLoop store c last recs).2.1 = kicksFrom last (recs.map Prod.snd) := by
  induction recs with
  | nil => intro c last _; rfl
  | cons p recs ih =>
    intro c last h
    obtain ⟨r, t⟩ := p
    have hk1 : kickTimes (stepRecord store c r).2.1 = [] :=
      kickTimes_nil_of_store _ (stepRecord_all_store store c r)
    simp only [runLoop] at h ⊢
    cases hs : stepRecord store c r with
    | mk c1 y =>
      obtain ⟨es1, err1⟩ := y
      rw [hs] at hk1
      cases err1 with
      | some e =>
        rw [hs] at h
        exact absurd h (by dsimp only; simp)
      | none =>
        rw [hs] at h
        dsimp only at h
        dsimp only at hk1 ⊢
        by_cases ht : 10 < t - last
        · rw [if_pos ht] at h ⊢
          dsimp only at h ⊢
          rw [List.map_cons, kicksFrom, if_pos ht, kickTimes, List.filterMap_append]
          rw [kickTimes] at hk1
          rw [hk1, List.nil_append, List.filterMap_cons]
          dsimp only [Event.kickTime?]
          rw [← kickTimes, ih c1 t h]
        · rw [if_neg ht] at h ⊢
          dsimp only at h ⊢
          rw [List.map_cons, kicksFrom, if_neg ht, kickTimes, List.filterMap_append]
          rw [kickTimes] at hk1
          rw [hk1, List.nil_append, ← kickTimes, ih c1 last h]

/-! ## Small auxiliary lemmas -/

theorem seg_assoc (f i s : String) :
    f ++ ("/" ++ s) ++ i = (f ++ "/") ++ (s ++ i) := by
  rw [← String.append_assoc f "/" s, String.append_assoc (f ++ "/") s i]

theorem org_key_ne (s : String) : ¬ ("organization/" ++ s) = "organization" := by
  intro h
  have hlen := congrArg String.length h
  rw [String.length_append] at hlen
  have h13 : ("organization/" : String).length = 13 := rfl
  have h12 : ("organization" : String).length = 12 := rfl
  rw [h13, h12] at hlen
  omega

theorem countP_map_zero {α : Type} (f : α → Event) (q : Event → Bool)
    (hq : ∀ a, q (f a) = false) (l : List α) : (l.map f).countP q = 0 := by
  induction l with
  | nil => rfl
  | cons a l ih => simp [List.countP_cons, hq, ih]

theorem processMembers_all_mergeMember (ms : List String) :
    (processMembers ms).1.all Event.isMergeMember = true := by
  induction ms with
  | nil => rfl
  | cons m rest ih =>
    rw [processMembers]
    cases hsm : splitMember m with
    | error e => rfl
    | ok tn =>
      obtain ⟨t, n⟩ := tn
      cases hpm : processMembers rest with
      | mk es r =>
        rw [hpm] at ih
        cases r <;> simp_all [List.all_cons, Event.isMergeMember]

theorem mergeMember_not_addRole (e : Event) (h : Event.isMergeMember e = true) :
    Event.isAddRole e = false := by
  cases e <;> first | rfl | (exfalso; simp [Event.isMergeMember] at h)

theorem roleCreationEvents_addRole_count (store : Store) (role : String) :
    (roleCreationEvents store role).countP Event.isAddRole = 1 := by
  rw [roleCreationEvents, List.countP_append, List.countP_append]
  rw [countP_map_zero _ _ (fun _ => rfl), countP_map_zero _ _ (fun _ => rfl)]
  rfl

/-! ## Claim theorems -/

/-- C9: running the TEST import source produces exactly the fixed
deterministic fixture: 3 resources (a project with children vm1 and
db1), 2 permissions, 2 roles (sqlreader with one permission, sqlwriter
with two), 4 principals (groups group1 and group2 with group2 a child
of group1, users felix and fooba children of group2), 2 bindings, and
a single final commit. -/
theorem test_fixture_scenario :
    TestImporter.run.countP Event.isDaoAddResource = 3 ∧
    TestImporter.run.countP Event.isDaoAddPermission = 2 ∧
    TestImporter.run.countP Event.isDaoAddRole = 2 ∧
    TestImporter.run.countP Event.isDaoAddMember = 4 ∧
    TestImporter.run.countP Event.isDaoAddBinding = 2 ∧
    TestImporter.run.countP Event.isCommit = 1 ∧
    TestImporter.run.getLast? = some Event.commit ∧
    TestImporter.run[0]? = some (Event.daoAddResource "project" none) ∧
    TestImporter.run[1]? = some (Event.daoAddResource "vm1" (some "project")) ∧
    TestImporter.run[2]? = some (Event.daoAddResource "db1" (some "project")) ∧
    TestImporter.run[3]? = some (Event.daoAddPermission "cloudsql.table.read") ∧
    TestImporter.run[4]? = some (Event.daoAddPermission "cloudsql.table.write") ∧
    TestImporter.run[5]? = some (Event.daoAddRole "sqlreader" ["cloudsql.table.read"]) ∧
    TestImporter.run[6]? =
      some (Event.daoAddRole "sqlwriter" ["cloudsql.table.read", "cloudsql.table.write"]) ∧
    TestImporter.run[7]? = some (Event.daoAddMember "group1" "group" []) ∧
    TestImporter.run[8]? = some (Event.daoAddMember "group2" "group" ["group1"]) ∧
    TestImporter.run[9]? = some (Event.daoAddMember "felix" "user" ["group2"]) ∧
    TestImporter.run[10]? = some (Event.daoAddMember "fooba" "user" ["group2"]) ∧
    TestImporter.run[11]? = some (Event.daoAddBinding "vm1" "sqlreader" ["group1"]) ∧
    TestImporter.run[12]? = some (Event.daoAddBinding "project" "sqlwriter" ["group2"]) ∧
    TestImporter.run.length = 14 :=
  ⟨rfl, rfl, rfl, rfl, rfl, rfl, rfl, rfl, rfl, rfl, rfl, rfl, rfl, rfl, rfl, rfl,
   rfl, rfl, rfl, rfl, rfl⟩

/-- C10: the EMPTY and TEST sources never touch the model's lifecycle
fields: replaying either trace leaves any model row exactly as it was
(no set_inprogress, kick_watchdog or set_done events occur), and each
trace performs exactly one commit. -/
theorem empty_and_test_frame (m : ModelState) :
    applyTrace m EmptyImporter.run = m ∧
    applyTrace m TestImporter.run = m ∧
    EmptyImporter.run.countP Event.isCommit = 1 ∧
    TestImporter.run.countP Event.isCommit = 1 ∧
    EmptyImporter.run.countP Event.isSetInprogress = 0 ∧
    EmptyImporter.run.countP Event.isKick = 0 ∧
    EmptyImporter.run.countP Event.isSetDone = 0 ∧
    TestImporter.run.countP Event.isSetInprogress = 0 ∧
    TestImporter.run.countP Event.isKick = 0 ∧
    TestImporter.run.countP Event.isSetDone = 0 :=
  ⟨rfl, rfl, rfl, rfl, rfl, rfl, rfl, rfl, rfl, rfl⟩

/-- C2: a folder, project, bucket or cloudsqlinstance record whose
declared parent key is missing from the in-run cache fails with a
ResolutionError carrying that key, writes nothing to the store, leaves
the cache unchanged, and aborts the rest of the run. -/
theorem cache_miss_aborts (store : Store) (c : Cache) :
    (∀ o : FolderObj, Cache.find c (o.parent_type ++ "/" ++ o.parent_id) = none →
      stepRecord store c (Rec.folders o) =
        (c, [], some (ImpError.resolutionError (o.parent_type ++ "/" ++ o.parent_id)))) ∧
    (∀ o : ProjectObj, Cache.find c (o.parent_type ++ "/" ++ o.parent_id) = none →
      stepRecord store c (Rec.projects o) =
        (c, [], some (ImpError.resolutionError (o.parent_type ++ "/" ++ o.parent_id)))) ∧
    (∀ o : BucketObj, Cache.find c ("project/" ++ o.project_number) = none →
      stepRecord store c (Rec.buckets o) =
        (c, [], some (ImpError.resolutionError ("project/" ++ o.project_number)))) ∧
    (∀ o : SqlInstObj, Cache.find c ("project/" ++ o.project_number) = none →
      stepRecord store c (Rec.cloudsqlinstances o) =
        (c, [], some (ImpError.resolutionError ("project/" ++ o.project_number)))) ∧
    (∀ (o : FolderObj) (last t : Nat) (rest : List (Rec × Nat)),
      Cache.find c (o.parent_type ++ "/" ++ o.parent_id) = none →
      runLoop store c last ((Rec.folders o, t) :: rest) =
        (c, [], some (ImpError.resolutionError (o.parent_type ++ "/" ++ o.parent_id)))) := by
  refine ⟨?_, ?_, ?_, ?_, ?_⟩
  · intro o h
    simp [stepRecord, convert_folder, stepConverted, h]
  · intro o h
    simp [stepRecord, convert_project, stepConverted, h]
  · intro o h
    simp [stepRecord, convert_bucket, stepConverted, h]
  · intro o h
    simp [stepRecord, convert_cloudsqlinstance, stepConverted, h]
  · intro o last t rest h
    simp [runLoop, stepRecord, convert_folder, stepConverted, h]

theorem cache_miss_aborts_witness :
    stepRecord storeW [] (Rec.folders ⟨"77", "organization", "1", "d"⟩) =
      ([], [], some (ImpError.resolutionError "organization/1")) :=
  (cache_miss_aborts storeW []).1 ⟨"77", "organization", "1", "d"⟩ rfl

/-- C3: every resolved child resource's full name is the cached
parent's full name joined with a slash and the local `type/id` segment,
and the child's parent field is the cached parent object; the
organization root has no parent and full name `organization/<id>`;
concretely, organization 123 followed by a project numbered 456 under
it yields full name `organization/123/project/456`. -/
theorem full_name_composition (c : Cache) :
    (∀ o : OrgObj,
      (convert_organization c o).1.full_name = "organization/" ++ o.org_id ∧
      (convert_organization c o).1.name = "organization/" ++ o.org_id ∧
      (convert_organization c o).1.parent = none) ∧
    (∀ (o : FolderObj) (p : Resource) (f : String),
      Cache.find c (o.parent_type ++ "/" ++ o.parent_id) = some (p, f) →
      ∃ r c2 es, convert_folder c o = Except.ok (r, c2, es) ∧
        r.full_name = f ++ "/" ++ ("folder/" ++ o.folder_id) ∧
        r.name = "folder/" ++ o.folder_id ∧ r.parent = some p) ∧
    (∀ (o : ProjectObj) (p : Resource) (f : String),
      Cache.find c (o.parent_type ++ "/" ++ o.parent_id) = some (p, f) →
      ∃ r c2 es, convert_project c o = Except.ok (r, c2, es) ∧
        r.full_name = f ++ "/" ++ ("project/" ++ o.project_number) ∧
        r.name = "project/" ++ o.project_number ∧ r.parent = some p) ∧
    (∀ (o : BucketObj) (p : Resource) (f : String),
      Cache.find c ("project/" ++ o.project_number) = some (p, f) →
      ∃ r c2 es, convert_bucket c o = Except.ok (r, c2, es) ∧
        r.full_name = f ++ "/" ++ ("bucket/" ++ o.bucket_id) ∧
        r.name = "bucket/" ++ o.bucket_id ∧ r.parent = some p) ∧
    (∀ (o : SqlInstObj) (p : Resource) (f : String),
      Cache.find c ("project/" ++ o.project_number) = some (p, f) →
      ∃ r c2 es, convert_cloudsqlinstance c o = Except.ok (r, c2, es) ∧
        r.full_name = f ++ "/" ++ ("cloudsqlinstance/" ++ o.name) ∧
        r.name = "cloudsqlinstance/" ++ o.name ∧ r.parent = some p) ∧
    (convert_organization ([] : Cache) ⟨"123"⟩).1.full_name = "organization/123" ∧
    (convert_organization ([] : Cache) ⟨"123"⟩).1.parent = none ∧
    (convert_project (convert_organization ([] : Cache) ⟨"123"⟩).2
        ⟨"456", "organization", "123", "demo"⟩).map (fun x => Resource.full_name x.1) =
      Except.ok "organization/123/project/456" := by
  refine ⟨?_, ?_, ?_, ?_, ?_, rfl, rfl, rfl⟩
  · intro o
    exact ⟨rfl, rfl, rfl⟩
  · intro o p f h
    rw [convert_folder, h]
    exact ⟨_, _, _, rfl, seg_assoc f o.folder_id "folder/", rfl, rfl⟩
  · intro o p f h
    rw [convert_project, h]
    exact ⟨_, _, _, rfl, seg_assoc f o.project_number "project/", rfl, rfl⟩
  · intro o p f h
    rw [convert_bucket, h]
    exact ⟨_, _, _, rfl, rfl, rfl, rfl⟩
  · intro o p f h
    rw [convert_cloudsqlinstance, h]
    exact ⟨_, _, _, rfl, rfl, rfl, rfl⟩

theorem full_name_composition_witness :
    ∃ r c2 es,
      convert_folder (convert_organization ([] : Cache) ⟨"123"⟩).2
          ⟨"7", "organization", "123", "d"⟩ = Except.ok (r, c2, es) ∧
      r.full_name = "organization/123" ++ "/" ++ ("folder/" ++ "7") ∧
      r.name = "folder/" ++ "7" ∧
      r.parent = some (convert_organization ([] : Cache) ⟨"123"⟩).1 :=
  (full_name_composition (convert_organization ([] : Cache) ⟨"123"⟩).2).2.1
    ⟨"7", "organization", "123", "d"⟩ (convert_organization ([] : Cache) ⟨"123"⟩).1
    "organization/123" rfl

/-- C7 counterexample: resolving a bucket (or a sql instance) against a
cache holding its parent project leaves the cache unchanged, so the
child's composite key is absent from the cache afterwards — the claim
that every resolved resource is cached fails for these two kinds. -/
theorem bucket_not_cached :
    (convert_bucket projCacheW ⟨"b1", "456"⟩).map (fun x => x.2.1) =
      Except.ok projCacheW ∧
    Cache.find projCacheW "bucket/b1" = none ∧
    (convert_cloudsqlinstance projCacheW ⟨"db", "456"⟩).map (fun x => x.2.1) =
      Except.ok projCacheW ∧
    Cache.find projCacheW "cloudsqlinstance/db" = none :=
  ⟨rfl, rfl, rfl, rfl⟩

/-- C7 (amended): successful organization, folder and project
resolutions write the resolved resource into the in-run cache under its
composite `type/id` key (the organization additionally under the
well-known key `organization`); bucket and cloudsqlinstance
resolutions return the cache unchanged and cache nothing. -/
theorem cache_population (c : Cache) :
    (∀ o : OrgObj,
      Cache.find (convert_organization c o).2 ("organization/" ++ o.org_id) =
        some ((convert_organization c o).1, "organization/" ++ o.org_id) ∧
      Cache.find (convert_organization c o).2 "organization" =
        some ((convert_organization c o).1, "organization/" ++ o.org_id)) ∧
    (∀ (o : FolderObj) (p : Resource) (f : String),
      Cache.find c (o.parent_type ++ "/" ++ o.parent_id) = some (p, f) →
      ∃ r c2 es, convert_folder c o = Except.ok (r, c2, es) ∧
        Cache.find c2 ("folder/" ++ o.folder_id) =
          some (r, f ++ "/folder/" ++ o.folder_id)) ∧
    (∀ (o : ProjectObj) (p : Resource) (f : String),
      Cache.find c (o.parent_type ++ "/" ++ o.parent_id) = some (p, f) →
      ∃ r c2 es, convert_project c o = Except.ok (r, c2, es) ∧
        Cache.find c2 ("project/" ++ o.project_number) =
          some (r, f ++ "/project/" ++ o.project_number)) ∧
    (∀ (o : BucketObj) (p : Resource) (f : String),
      Cache.find c ("project/" ++ o.project_number) = some (p, f) →
      ∃ r es, convert_bucket c o = Except.ok (r, c, es)) ∧
    (∀ (o : SqlInstObj) (p : Resource) (f : String),
      Cache.find c ("project/" ++ o.project_number) = some (p, f) →
      ∃ r es, convert_cloudsqlinstance c o = Except.ok (r, c, es)) := by
  refine ⟨?_, ?_, ?_, ?_, ?_⟩
  · intro o
    constructor
    · simp [convert_organization, Cache.insert, Cache.find]
    · simp [convert_organization, Cache.insert, Cache.find, org_key_ne o.org_id]
  · intro o p f h
    rw [convert_folder, h]
    refine ⟨_, _, _, rfl, ?_⟩
    simp [Cache.insert, Cache.find]
  · intro o p f h
    rw [convert_project, h]
    refine ⟨_, _, _, rfl, ?_⟩
    simp [Cache.insert, Cache.find]
  · intro o p f h
    rw [convert_bucket, h]
    exact ⟨_, _, rfl⟩
  · intro o p f h
    rw [convert_cloudsqlinstance, h]
    exact ⟨_, _, rfl⟩

theorem cache_population_witness :
    ∃ r c2 es,
      convert_folder (convert_organization ([] : Cache) ⟨"123"⟩).2
          ⟨"7", "organization", "123", "d"⟩ = Except.ok (r, c2, es) ∧
      Cache.find c2 ("folder/" ++ "7") =
        some (r, "organization/123" ++ "/folder/" ++ "7") :=
  (cache_population (convert_organization ([] : Cache) ⟨"123"⟩).2).2.1
    ⟨"7", "organization", "123", "d"⟩ (convert_organization ([] : Cache) ⟨"123"⟩).1
    "organization/123" rfl

theorem roleCreationEvents_addBinding_count (store : Store) (role : String) :
    (roleCreationEvents store role).countP Event.isAddBinding = 0 := by
  rw [roleCreationEvents, List.countP_append, List.countP_append]
  rw [countP_map_zero _ _ (fun _ => rfl), countP_map_zero _ _ (fun _ => rfl)]
  rfl

theorem processBinding_roleA (store : Store) (rt ri : String) (r : Resource)
    (hres : store.queryResource (rt ++ "/" ++ ri) = Except.ok r) :
    processBinding store rt ri ⟨"role/a", ["user:alice", "group:g1"]⟩ =
      ([Event.mergeMember ⟨"user/alice", "user", "alice", []⟩,
        Event.mergeMember ⟨"group/g1", "group", "g1", []⟩] ++
        (match store.queryRole "role/a" with
         | Except.ok _ => []
         | Except.error _ => roleCreationEvents store "role/a") ++
        [Event.addBinding r.name "role/a" ["user/alice", "group/g1"]], none) := by
  have hpm : processMembers ["user:alice", "group:g1"] =
      ([Event.mergeMember ⟨"user/alice", "user", "alice", []⟩,
        Event.mergeMember ⟨"group/g1", "group", "g1", []⟩],
        Except.ok [("user", "alice"), ("group", "g1")]) := rfl
  simp only [processBinding]
  rw [hpm]
  dsimp only
  rw [hres]
  rfl

/-- C4: the policy document with one binding of role `role/a` and
members `user:alice` and `group:g1`, attached to a resource that the
persisted-store point query resolves, produces exactly the two
principal upserts (each member string split on its first colon, no
parents), the role created exactly when the lookup reports it absent,
and exactly one binding linking the resource row, the role and both
principals; bindings are processed in document order, the dispatch
neither consults nor changes the in-run cache, and a not-found
resource point query fails the conversion fatally. -/
theorem policy_binding_scenario (store : Store) (rt ri : String) (r : Resource)
    (hres : store.queryResource (rt ++ "/" ++ ri) = Except.ok r) :
    (store.queryRole "role/a" = Except.ok () →
      convert_policy store (polA rt ri) =
        ([Event.mergeMember ⟨"user/alice", "user", "alice", []⟩,
          Event.mergeMember ⟨"group/g1", "group", "g1", []⟩,
          Event.addBinding r.name "role/a" ["user/alice", "group/g1"]], none)) ∧
    (store.queryRole "role/a" = Except.error StoreErr.notFound →
      convert_policy store (polA rt ri) =
        ([Event.mergeMember ⟨"user/alice", "user", "alice", []⟩,
          Event.mergeMember ⟨"group/g1", "group", "g1", []⟩] ++
          roleCreationEvents store "role/a" ++
          [Event.addBinding r.name "role/a" ["user/alice", "group/g1"]], none) ∧
      (convert_policy store (polA rt ri)).1.countP Event.isAddRole = 1 ∧
      (convert_policy store (polA rt ri)).1.countP Event.isAddBinding = 1) ∧
    (∀ c : Cache, stepRecord store c (Rec.policy (polA rt ri)) =
      (c, (convert_policy store (polA rt ri)).1, (convert_policy store (polA rt ri)).2)) ∧
    (∀ (rt2 ri2 : String) (b : BindingSpec) (bs : List BindingSpec) (es : List Event),
      processBinding store rt2 ri2 b = (es, none) →
      convert_policy_go store rt2 ri2 (b :: bs) =
        (es ++ (convert_policy_go store rt2 ri2 bs).1,
          (convert_policy_go store rt2 ri2 bs).2)) ∧
    (∀ store2 : Store,
      store2.queryResource (rt ++ "/" ++ ri) = Except.error StoreErr.notFound →
      (convert_policy store2 (polA rt ri)).2 =
        some (ImpError.resolutionError (rt ++ "/" ++ ri))) := by
  have hpb := processBinding_roleA store rt ri r hres
  refine ⟨?_, ?_, ?_, ?_, ?_⟩
  · intro hr
    rw [hr] at hpb
    dsimp only at hpb
    simp only [convert_policy, polA, convert_policy_go]
    rw [hpb]
    dsimp only
    simp
  · intro hr
    rw [hr] at hpb
    dsimp only at hpb
    have htrace : convert_policy store (polA rt ri) =
        ([Event.mergeMember ⟨"user/alice", "user", "alice", []⟩,
          Event.mergeMember ⟨"group/g1", "group", "g1", []⟩] ++
          roleCreationEvents store "role/a" ++
          [Event.addBinding r.name "role/a" ["user/alice", "group/g1"]], none) := by
      simp only [convert_policy, polA, convert_policy_go]
      rw [hpb]
      dsimp only
      simp
    refine ⟨htrace, ?_, ?_⟩
    · rw [htrace]
      simp [List.countP_append, List.countP_cons, Event.isAddRole,
        roleCreationEvents_addRole_count]
    · rw [htrace]
      simp [List.countP_append, List.countP_cons, Event.isAddBinding,
        roleCreationEvents_addBinding_count]
  · intro c
    rfl
  · intro rt2 ri2 b bs es h
    simp only [convert_policy_go]
    rw [h]
  · intro store2 h2
    have hpm : processMembers ["user:alice", "group:g1"] =
        ([Event.mergeMember ⟨"user/alice", "user", "alice", []⟩,
          Event.mergeMember ⟨"group/g1", "group", "g1", []⟩],
          Except.ok [("user", "alice"), ("group", "g1")]) := rfl
    simp only [convert_policy, polA, convert_policy_go, processBinding]
    rw [hpm]
    dsimp only
    rw [h2]

def resW456 : Resource :=
  Resource.mk "organization/123/project/456" "project/456" "project" none ""

theorem policy_binding_scenario_witness :
    convert_policy storeW (polA "project" "456") =
      ([Event.mergeMember ⟨"user/alice", "user", "alice", []⟩,
        Event.mergeMember ⟨"group/g1", "group", "g1", []⟩] ++
        roleCreationEvents storeW "role/a" ++
        [Event.addBinding resW456.name "role/a" ["user/alice", "group/g1"]], none) ∧
    (convert_policy storeW (polA "project" "456")).1.countP Event.isAddRole = 1 ∧
    (convert_policy storeW (polA "project" "456")).1.countP Event.isAddBinding = 1 :=
  (policy_binding_scenario storeW "project" "456" resW456 rfl).2.1 rfl

/-- C5 counterexample: with a store whose role lookup fails with a
store-layer failure that is not a not-found, the policy conversion
still succeeds and fabricates the role: the failure is swallowed by
the bare exception handler instead of propagating and aborting the
run, contradicting the claim. -/
theorem role_failure_swallowed :
    storeRoleFail.queryRole "role/a" =
      Except.error (StoreErr.failure "connection lost") ∧
    (convert_policy storeRoleFail (polA "project" "456")).2 = none ∧
    (convert_policy storeRoleFail (polA "project" "456")).1.countP Event.isAddRole = 1 :=
  ⟨rfl, rfl, rfl⟩

/-- C5 (amended): the role-by-name lookup sits under a bare exception
handler, so a new Role with a fabricated permission set is created
whenever the lookup fails for any reason — not-found and any other
store failure alike are swallowed and treated as role absent, and the
run proceeds (an abort at this point can only come from the resource
point query); when the lookup finds the role, no role is created. -/
theorem role_lookup_fallback (store : Store) (rt ri : String) (b : BindingSpec)
    (msEs : List Event) (ms : List (String × String))
    (hm : processMembers b.members = (msEs, Except.ok ms)) :
    (∀ e : StoreErr, store.queryRole b.role = Except.error e →
      processBinding store rt ri b =
        (match store.queryResource (rt ++ "/" ++ ri) with
         | Except.error StoreErr.notFound =>
           (msEs ++ roleCreationEvents store b.role,
             some (ImpError.resolutionError (rt ++ "/" ++ ri)))
         | Except.error (StoreErr.failure msg) =>
           (msEs ++ roleCreationEvents store b.role, some (ImpError.storeError msg))
         | Except.ok r =>
           (msEs ++ roleCreationEvents store b.role ++
             [Event.addBinding r.name b.role (ms.map (fun p => p.1 ++ "/" ++ p.2))],
             none))) ∧
    (∀ (e : StoreErr) (r : Resource), store.queryRole b.role = Except.error e →
      store.queryResource (rt ++ "/" ++ ri) = Except.ok r →
      (processBinding store rt ri b).2 = none ∧
      (processBinding store rt ri b).1.countP Event.isAddRole = 1) ∧
    (∀ r : Resource, store.queryRole b.role = Except.ok () →
      store.queryResource (rt ++ "/" ++ ri) = Except.ok r →
      (processBinding store rt ri b).1.countP Event.isAddRole = 0) := by
  have hms : msEs.all Event.isMergeMember = true := by
    have h := processMembers_all_mergeMember b.members
    rw [hm] at h
    exact h
  have hz : msEs.countP Event.isAddRole = 0 :=
    countP_zero_of_all mergeMember_not_addRole msEs hms
  have key : ∀ e : StoreErr, store.queryRole b.role = Except.error e →
      processBinding store rt ri b =
        (match store.queryResource (rt ++ "/" ++ ri) with
         | Except.error StoreErr.notFound =>
           (msEs ++ roleCreationEvents store b.role,
             some (ImpError.resolutionError (rt ++ "/" ++ ri)))
         | Except.error (StoreErr.failure msg) =>
           (msEs ++ roleCreationEvents store b.role, some (ImpError.storeError msg))
         | Except.ok r =>
           (msEs ++ roleCreationEvents store b.role ++
             [Event.addBinding r.name b.role (ms.map (fun p => p.1 ++ "/" ++ p.2))],
             none)) := by
    intro e he
    simp only [processBinding]
    rw [hm]
    dsimp only
    rw [he]
  refine ⟨key, ?_, ?_⟩
  · intro e r he hr2
    rw [key e he, hr2]
    dsimp only
    refine ⟨rfl, ?_⟩
    simp [List.countP_append, List.countP_cons, Event.isAddRole, hz,
      roleCreationEvents_addRole_count]
  · intro r hok hr2
    simp only [processBinding]
    rw [hm]
    dsimp only
    rw [hok]
    dsimp only
    rw [hr2]
    dsimp only
    simp [List.countP_append, List.countP_cons, Event.isAddRole, hz]

theorem role_lookup_fallback_witness :
    (processBinding storeRoleFail "project" "456"
        ⟨"role/a", ["user:alice", "group:g1"]⟩).2 = none ∧
    (processBinding storeRoleFail "project" "456"
        ⟨"role/a", ["user:alice", "group:g1"]⟩).1.countP Event.isAddRole = 1 :=
  (role_lookup_fallback storeRoleFail "project" "456"
      ⟨"role/a", ["user:alice", "group:g1"]⟩
      [Event.mergeMember ⟨"user/alice", "user", "alice", []⟩,
       Event.mergeMember ⟨"group/g1", "group", "g1", []⟩]
      [("user", "alice"), ("group", "g1")] rfl).2.1
    (StoreErr.failure "connection lost") resW456 rfl rfl

/-- C6: record dispatch is a strict two-set policy: each of the eight
handled kinds is dispatched to its converter, a `customer` record is
discarded silently with no store write and no error, and a record of
any other kind raises NotImplementedError, which skips the rest of the
stream and fails the whole run. -/
theorem record_dispatch (store : Store) :
    (∀ (c : Cache) (o : OrgObj), stepRecord store c (Rec.organizations o) =
      ((convert_organization c o).2,
        [Event.addResource (convert_organization c o).1], none)) ∧
    (∀ (c : Cache) (o : FolderObj), stepRecord store c (Rec.folders o) =
      stepConverted c (convert_folder c o)) ∧
    (∀ (c : Cache) (o : ProjectObj), stepRecord store c (Rec.projects o) =
      stepConverted c (convert_project c o)) ∧
    (∀ (c : Cache) (o : BucketObj), stepRecord store c (Rec.buckets o) =
      stepConverted c (convert_bucket c o)) ∧
    (∀ (c : Cache) (o : SqlInstObj), stepRecord store c (Rec.cloudsqlinstances o) =
      stepConverted c (convert_cloudsqlinstance c o)) ∧
    (∀ (c : Cache) (o : PolicyObj), stepRecord store c (Rec.policy o) =
      (c, (convert_policy store o).1, (convert_policy store o).2)) ∧
    (∀ (c : Cache) (g : String), stepRecord store c (Rec.group g) =
      (c, (convert_group g).2 ++ [Event.addMember (convert_group g).1], none)) ∧
    (∀ (c : Cache) (o : MembershipObj), stepRecord store c (Rec.membership o) =
      (c, (convert_membership o).2 ++ [Event.addMember (convert_membership o).1], none)) ∧
    (∀ c : Cache, stepRecord store c Rec.customer = (c, [], none)) ∧
    (∀ (c : Cache) (k : String), stepRecord store c (Rec.unknown k) =
      (c, [], some (ImpError.notImplementedError k))) ∧
    (∀ (c : Cache) (last t : Nat) (k : String) (rest : List (Rec × Nat)),
      runLoop store c last ((Rec.unknown k, t) :: rest) =
        (c, [], some (ImpError.notImplementedError k))) ∧
    (∀ (t0 t : Nat) (k : String) (rest : List (Rec × Nat)),
      (ForsetiImporter.run store t0 ((Rec.unknown k, t) :: rest)).2 =
        some (ImpError.notImplementedError k)) :=
  ⟨fun _ _ => rfl, fun _ _ => rfl, fun _ _ => rfl, fun _ _ => rfl, fun _ _ => rfl,
   fun _ _ => rfl, fun _ _ => rfl, fun _ _ => rfl, fun _ => rfl, fun _ _ => rfl,
   fun _ _ _ _ _ => rfl, fun _ _ _ _ => rfl⟩

/-- C1: the FORSETI run persists the model, flips it to RUNNING and
writes the initial heartbeat before consuming any record; on stream
exhaustion without error it sets DONE and then performs exactly one
final commit (the trace ends in set_done followed by the only commit);
when a resolver raises, the error propagates out of run(), set_done is
never called and no commit occurs, so a model that started PENDING is
left RUNNING and never DONE. -/
theorem run_lifecycle (store : Store) (t0 hb : Nat) (recs : List (Rec × Nat)) :
    (∃ rest : List Event,
      (ForsetiImporter.run store t0 recs).1 =
        Event.persistModel :: Event.setInprogress :: Event.kickWatchdog t0 :: rest) ∧
    applyTrace ⟨Status.PENDING, hb⟩
        [Event.persistModel, Event.setInprogress, Event.kickWatchdog t0] =
      ⟨Status.RUNNING, t0⟩ ∧
    ((ForsetiImporter.run store t0 recs).2 = none →
      (∃ front : List Event,
        (ForsetiImporter.run store t0 recs).1 =
          front ++ [Event.setDone, Event.commit] ∧
        front.all (fun e => !(Event.isSetDone e) && !(Event.isCommit e)) = true) ∧
      (ForsetiImporter.run store t0 recs).1.countP Event.isCommit = 1 ∧
      (applyTrace ⟨Status.PENDING, hb⟩ (ForsetiImporter.run store t0 recs).1).status =
        Status.DONE) ∧
    (∀ e : ImpError, (ForsetiImporter.run store t0 recs).2 = some e →
      (ForsetiImporter.run store t0 recs).1.countP Event.isSetDone = 0 ∧
      (ForsetiImporter.run store t0 recs).1.countP Event.isCommit = 0 ∧
      (applyTrace ⟨Status.PENDING, hb⟩ (ForsetiImporter.run store t0 recs).1).status =
        Status.RUNNING) := by
  cases hrl : runLoop store [] t0 recs with
  | mk cf y =>
    obtain ⟨es, err⟩ := y
    have hes : es.all (fun e => Event.isStore e || Event.isKick e) = true := by
      have h := runLoop_all_storeOrKick store recs ([] : Cache) t0
      rw [hrl] at h
      exact h
    cases err with
    | none =>
      have hrun : ForsetiImporter.run store t0 recs =
          ([Event.persistModel, Event.setInprogress, Event.kickWatchdog t0] ++
            (es ++ [Event.setDone, Event.commit]), none) := by
        simp only [ForsetiImporter.run]
        rw [hrl]
      refine ⟨⟨es ++ [Event.setDone, Event.commit], by rw [hrun]; rfl⟩, rfl, ?_, ?_⟩
      · intro _
        refine ⟨⟨[Event.persistModel, Event.setInprogress, Event.kickWatchdog t0] ++ es,
            ?_, ?_⟩, ?_, ?_⟩
        · rw [hrun]
          dsimp only
          rw [List.append_assoc]
        · rw [List.all_append, Bool.and_eq_true]
          exact ⟨rfl, all_imp (fun e he => by
            rw [storeOrKick_not_setDone e he, storeOrKick_not_commit e he]
            rfl) es hes⟩
        · rw [hrun]
          dsimp only
          rw [List.countP_append, List.countP_append,
            countP_zero_of_all storeOrKick_not_commit es hes]
          rfl
        · rw [hrun]
          dsimp only
          rw [applyTrace_append, applyTrace_append]
          rfl
      · intro e he
        rw [hrun] at he
        exact absurd he (by simp)
    | some e0 =>
      have hrun : ForsetiImporter.run store t0 recs =
          ([Event.persistModel, Event.setInprogress, Event.kickWatchdog t0] ++ es,
            some e0) := by
        simp only [ForsetiImporter.run]
        rw [hrl]
      refine ⟨⟨es, by rw [hrun]; rfl⟩, rfl, ?_, ?_⟩
      · intro hnone
        rw [hrun] at hnone
        exact absurd hnone (by simp)
      · intro e he
        refine ⟨?_, ?_, ?_⟩
        · rw [hrun]
          dsimp only
          rw [List.countP_append, countP_zero_of_all storeOrKick_not_setDone es hes]
          rfl
        · rw [hrun]
          dsimp only
          rw [List.countP_append, countP_zero_of_all storeOrKick_not_commit es hes]
          rfl
        · rw [hrun]
          dsimp only
          rw [applyTrace_append,
            applyTrace_status es _ (all_imp storeOrKick_keepsStatus es hes)]
          rfl

theorem run_lifecycle_witness :
    (ForsetiImporter.run storeW 0 [(Rec.customer, 1)]).1.countP Event.isCommit = 1 ∧
    (ForsetiImporter.run storeW 0 [(Rec.unknown "frob", 1)]).1.countP
      Event.isCommit = 0 ∧
    (applyTrace ⟨Status.PENDING, 5⟩
      (ForsetiImporter.run storeW 0 [(Rec.unknown "frob", 1)]).1).status =
      Status.RUNNING :=
  ⟨((run_lifecycle storeW 0 5 [(Rec.customer, 1)]).2.2.1 rfl).2.1,
   ((run_lifecycle storeW 0 5 [(Rec.unknown "frob", 1)]).2.2.2
      (ImpError.notImplementedError "frob") rfl).2.1,
   ((run_lifecycle storeW 0 5 [(Rec.unknown "frob", 1)]).2.2.2
      (ImpError.notImplementedError "frob") rfl).2.2⟩

/-- C8 counterexample: a run whose single record finishes at second 50
(start time 0, so the run lasts T = 50 seconds) performs only 2
heartbeat writes, strictly fewer than floor(T/10) = 5, refuting the
claimed lower bound: the interval check happens only at record
boundaries, so a single slow record starves the heartbeat. -/
theorem heartbeat_floor_fails :
    (ForsetiImporter.run storeW 0 [(Rec.customer, 50)]).2 = none ∧
    kickTimes (ForsetiImporter.run storeW 0 [(Rec.customer, 50)]).1 = [0, 50] ∧
    (kickTimes (ForsetiImporter.run storeW 0 [(Rec.customer, 50)]).1).length = 2 ∧
    2 < 50 / 10 :=
  ⟨rfl, rfl, rfl, by decide⟩

/-- C8 (amended): the coordinator writes the heartbeat at run start
and then, checked at each record boundary, again exactly when strictly
more than 10 seconds have elapsed since the previous heartbeat write.
Hence on an error-free run the heartbeat-write times of the trace are
the start time followed by `kicksFrom` over the boundary times; the
write times are non-decreasing when the boundary times are; after
every boundary check at most 10 seconds have elapsed since the last
write; and the heartbeat is not written at every record (a two-record
run with close boundaries gets a single write).  The original
floor(T/10) lower bound over arbitrary runs of T seconds does not hold
of the code (see the counterexample) because the check only runs at
record boundaries. -/
theorem heartbeat_mechanism (store : Store) (t0 : Nat) (recs : List (Rec × Nat))
    (hok : (ForsetiImporter.run store t0 recs).2 = none)
    (hchain : List.Chain (fun a b => a ≤ b) t0 (recs.map Prod.snd)) :
    kickTimes (ForsetiImporter.run store t0 recs).1 =
      t0 :: kicksFrom t0 (recs.map Prod.snd) ∧
    List.Chain (fun a b => a ≤ b) t0 (kicksFrom t0 (recs.map Prod.snd)) ∧
    (∀ (ts1 : List Nat) (t : Nat) (ts2 : List Nat),
      recs.map Prod.snd = ts1 ++ t :: ts2 →
      t - lastKick t0 (ts1 ++ [t]) ≤ 10) ∧
    (kickTimes (ForsetiImporter.run store 0
        [(Rec.customer, 1), (Rec.customer, 2)]).1).length = 1 := by
  refine ⟨?_, kicksFrom_chain (recs.map Prod.snd) t0 hchain,
    fun ts1 t ts2 _ => boundary_staleness t0 t ts1, rfl⟩
  cases hrl : runLoop store [] t0 recs with
  | mk cf y =>
    obtain ⟨es, err⟩ := y
    cases err with
    | some e =>
      exfalso
      have hbad : (ForsetiImporter.run store t0 recs).2 = some e := by
        simp only [ForsetiImporter.run]
        rw [hrl]
      rw [hbad] at hok
      exact Option.noConfusion hok
    | none =>
      have hln : (runLoop store [] t0 recs).2.2 = none := by rw [hrl]
      have hkt := runLoop_kickTimes store recs ([] : Cache) t0 hln
      rw [hrl] at hkt
      have hrun : ForsetiImporter.run store t0 recs =
          ([Event.persistModel, Event.setInprogress, Event.kickWatchdog t0] ++
            (es ++ [Event.setDone, Event.commit]), none) := by
        simp only [ForsetiImporter.run]
        rw [hrl]
      rw [hrun]
      dsimp only
      rw [kickTimes, List.filterMap_append, List.filterMap_append]
      rw [show List.filterMap Event.kickTime? es = kickTimes es from rfl, hkt]
      rw [show List.filterMap Event.kickTime?
          [Event.persistModel, Event.setInprogress, Event.kickWatchdog t0] = [t0] from rfl,
        show List.filterMap Event.kickTime? [Event.setDone, Event.commit] =
          ([] : List Nat) from rfl, List.append_nil]
      rfl

theorem heartbeat_mechanism_witness :
    kickTimes (ForsetiImporter.run storeW 0
        [(Rec.customer, 5), (Rec.customer, 12)]).1 =
      0 :: kicksFrom 0 [5, 12] :=
  (heartbeat_mechanism storeW 0 [(Rec.customer, 5), (Rec.customer, 12)] rfl
    (List.Chain.cons (by omega) (List.Chain.cons (by omega) List.Chain.nil))).1
